import Mathlib

/-!
Verification development for the Slips-tools evidence-log parser and its
shell orchestration (`alert_summary/`).

The repository snapshot contains the shell drivers
(`generate_dataset.sh`, `generate_dataset_alerts.sh`,
`analyze_slips_with_llm.sh`), their documentation and an example DAG
output, but not the two Python parsers they invoke
(`slips_dag_generator.py`, `alert_dag_parser.py`).  Definitions for the
missing parsers are therefore modelled from the specification (marked
`Modelled from the spec:`), while everything about the shell scripts is
translated directly from the shell source.  Floating-point confidence
values are not modelled; no claim below depends on them.
-/

namespace SlipsTools

/-! ## Character-list string utilities -/

/-- Does `p` start the list `l` (character-wise)? -/
def charsStart : List Char → List Char → Bool
  | [], _ => true
  | _ :: _, [] => false
  | p :: ps, c :: cs => p == c && charsStart ps cs

/-- Does the pattern `pat` occur as a contiguous run inside `l`? -/
def subOccurs (pat : List Char) : List Char → Bool
  | [] => pat.isEmpty
  | c :: cs => charsStart pat (c :: cs) || subOccurs pat cs

/-- Does the string `s` contain `pat` as a substring? -/
def hasSub (s pat : String) : Bool :=
  subOccurs pat.toList s.toList

/-- Split `l` at the first occurrence of `pat`, returning the part before
and the part after the occurrence. -/
def breakAt (pat : List Char) : List Char → Option (List Char × List Char)
  | [] => if pat.isEmpty then some ([], []) else none
  | c :: cs =>
    if charsStart pat (c :: cs) then some ([], (c :: cs).drop pat.length)
    else
      match breakAt pat cs with
      | some (pre, post) => some (c :: pre, post)
      | none => none

/-- Parse a nonempty all-digit character list as a natural number. -/
def parseNatDigits (cs : List Char) : Option Nat :=
  if cs.isEmpty then none
  else if cs.all (fun c => c.isDigit) then
    some (cs.foldl (fun n c => n * 10 + (c.toNat - 48)) 0)
  else none

/-! ## Data model (spec section 3) -/

/-- Threat levels, ordered info < low < medium < high < critical. -/
inductive ThreatLevel
  | info
  | low
  | medium
  | high
  | critical
deriving DecidableEq, Repr

/-- Numeric rank realizing the order info < low < medium < high < critical. -/
def ThreatLevel.rank : ThreatLevel → Nat
  | .info => 0
  | .low => 1
  | .medium => 2
  | .high => 3
  | .critical => 4

/-- The larger of two threat levels, by rank. -/
def tlMax (a b : ThreatLevel) : ThreatLevel :=
  if a.rank ≤ b.rank then b else a

/-- Evidence categories of the data model (spec section 3). -/
inductive Category
  | PortScan
  | CCChannel
  | BlacklistedIP
  | SuspiciousConnection
  | PrivateIPConnection
  | DNSIssue
  | UnencryptedTraffic
  | MaliciousDetection
  | GenericEvidence
  | Unknown
deriving DecidableEq, Repr

/-- Modelled from the spec: the EvidenceExtractor's ordered category
dispatch (spec sections 4.2 and 9; `slips_dag_generator.py` is not in the
repository snapshot).  The source uses a sequential regex if/elif chain;
the patterns here are the signature phrases of spec section 8 and the
labels of `alert_summary/examples/sample_dag_output.txt`, with specific
patterns placed before generic catch-alls. -/
def classify (d : String) : Category :=
  if hasSub d "C&C" then .CCChannel
  else if hasSub d "Connection to blacklisted" then .BlacklistedIP
  else if hasSub d "Horizontal scan to port" then .PortScan
  else if hasSub d "Non-HTTP connection" then .SuspiciousConnection
  else if hasSub d "Non-SSL connection" then .SuspiciousConnection
  else if hasSub d "Unencrypted" then .UnencryptedTraffic
  else if hasSub d "without DNS resolution" then .DNSIssue
  else if hasSub d "Connection to private IP" then .PrivateIPConnection
  else if hasSub d "detected as malicious" then .MaliciousDetection
  else if hasSub d "with threat level" then .GenericEvidence
  else .Unknown

/-- The same dispatch, written the way the spec states it: an explicit
ordered list of (pattern, category) pairs. -/
def categoryMatchers : List (String × Category) :=
  [("C&C", .CCChannel),
   ("Connection to blacklisted", .BlacklistedIP),
   ("Horizontal scan to port", .PortScan),
   ("Non-HTTP connection", .SuspiciousConnection),
   ("Non-SSL connection", .SuspiciousConnection),
   ("Unencrypted", .UnencryptedTraffic),
   ("without DNS resolution", .DNSIssue),
   ("Connection to private IP", .PrivateIPConnection),
   ("detected as malicious", .MaliciousDetection),
   ("with threat level", .GenericEvidence)]

/-- First-match-wins over the ordered matcher list, falling back to
`Unknown` when no pattern matches. -/
def firstMatchCategory (d : String) : Category :=
  match categoryMatchers.find? (fun m => hasSub d m.fst) with
  | some m => m.snd
  | none => .Unknown

/-- Threat level parsed from the trailing `Threat Level: <x>` text of an
evidence line, defaulting to `info` when absent (spec section 4.2). -/
def parseThreat (d : String) : ThreatLevel :=
  if hasSub d "Threat Level: critical" then .critical
  else if hasSub d "Threat Level: high" then .high
  else if hasSub d "Threat Level: medium" then .medium
  else if hasSub d "Threat Level: low" then .low
  else .info

/-- One atomic detected security observation (spec section 3). -/
structure EvidenceEvent where
  timestamp : String
  source_ip : String
  category : Category
  description : String
  threat_level : ThreatLevel
  repeat_count : Nat
deriving DecidableEq, Repr

/-! ## Plain-text log line classification (spec section 4.1)

`slips_dag_generator.py` is not in the repository snapshot; the line
shapes are modelled from spec sections 4.1 and 6. -/

/-- Strip leading spaces and tabs. -/
def dropIndent : List Char → List Char
  | [] => []
  | c :: cs => if c == ' ' || c == '\t' then dropIndent cs else c :: cs

/-- Modelled from the spec: a header line carries a leading timestamp, an
`[IP <addr>]` group and either the `given the following evidence:` marker
or the `detected as malicious in timewindow` marker (spec section 6).
Returns the captured (timestamp, IP). -/
def headerLine? (s : String) : Option (String × String) :=
  if hasSub s "given the following evidence:" || hasSub s "detected as malicious in timewindow" then
    match breakAt (" [".toList) s.toList, breakAt ("[IP ".toList) s.toList with
    | some (ts, _), some (_, rest) =>
      match breakAt ("]".toList) rest with
      | some (ip, _) => some (String.mk ts, String.mk ip)
      | none => none
    | _, _ => none
  else none

/-- Modelled from the spec: an evidence bullet is a line beginning with
`-` (possibly indented by tab or spaces) under a header (spec section
4.1, shape 5).  Returns the evidence description text. -/
def bulletLine? (s : String) : Option String :=
  let t := dropIndent s.toList
  if charsStart ('-' :: ' ' :: []) t then some (String.mk (t.drop 2)) else none

/-- Modelled from the spec: a `(+ N similar events)` line following an
evidence bullet (spec section 6).  Returns N. -/
def similarLine? (s : String) : Option Nat :=
  match breakAt ("(+ ".toList) s.toList with
  | none => none
  | some (_, rest) =>
    match breakAt (" similar events)".toList) rest with
    | none => none
    | some (digits, _) => parseNatDigits digits

/-! ## Plain-text LogParser (spec sections 4.1-4.3) -/

/-- Apply `f` to the last element of a list, if any. -/
def updateLast (f : α → α) : List α → List α
  | [] => []
  | [a] => [f a]
  | a :: b :: rest => a :: updateLast f (b :: rest)

/-- State of the line-by-line plain-text parse: emitted events in file
order, the current header (timestamp, IP) if one has been seen, and the
skipped-line counter of spec section 4.1. -/
structure ParserState where
  events : List EvidenceEvent
  curHeader : Option (String × String)
  skipped : Nat
deriving Repr

/-- The event emitted for one evidence bullet: timestamp and IP come from
the enclosing header, category and threat level from the description
(spec section 4.2); `repeat_count` defaults to 1. -/
def mkEvent (ts ip d : String) : EvidenceEvent :=
  { timestamp := ts
    source_ip := ip
    category := classify d
    description := d
    threat_level := parseThreat d
    repeat_count := 1 }

/-- Modelled from the spec: one step of the plain-text LogParser (spec
sections 4.1 and 4.3).  Priority order: header shapes first, then an
evidence bullet under the current header, then a `(+ N similar events)`
line adjusting the just-emitted event's `repeat_count` to N+1; anything
else is skipped and counted, never an error. -/
def stepLine (st : ParserState) (l : String) : ParserState :=
  match headerLine? l with
  | some h => { st with curHeader := some h }
  | none =>
    match st.curHeader with
    | some (ts, ip) =>
      match bulletLine? l with
      | some d => { st with events := st.events ++ [mkEvent ts ip d] }
      | none =>
        match similarLine? l with
        | some n =>
          if st.events.isEmpty then { st with skipped := st.skipped + 1 }
          else { st with events := updateLast (fun e => { e with repeat_count := n + 1 }) st.events }
        | none => { st with skipped := st.skipped + 1 }
    | none => { st with skipped := st.skipped + 1 }

/-- Fold the parser over a list of lines from a given state. -/
def foldSteps (st : ParserState) (ls : List String) : ParserState :=
  ls.foldl stepLine st

/-- The initial parser state. -/
def initState : ParserState :=
  { events := [], curHeader := none, skipped := 0 }

/-- Modelled from the spec: the full-file plain-text parse (spec section
4.3), a single pass over the input lines. -/
def plainParse (ls : List String) : ParserState :=
  foldSteps initState ls

/-- Total number of emitted events. -/
def totalEvents (st : ParserState) : Nat :=
  st.events.length

/-- The trailing statistics block's headline, as in the example output
`Summary of 129 evidence events:` (spec section 4.5). -/
def statsLine (st : ParserState) : String :=
  "Summary of " ++ toString (totalEvents st) ++ " evidence events:"

/-- The run diagnostics reporting the skipped-line total (spec sections
4.1 and 7). -/
def skipReport (st : ParserState) : String :=
  "Skipped lines: " ++ toString st.skipped

/-- The distinct source IPs of the emitted events, in first-appearance
order; one Incident is formed per IP in flat mode. -/
def ipsOf (st : ParserState) : List String :=
  (st.events.map (fun e => e.source_ip)).dedup

/-- The flat/IP-based event stream for one IP: the emitted events of that
IP in file-appearance order, never re-sorted (spec section 4.3). -/
def eventsForIp (ip : String) (st : ParserState) : List EvidenceEvent :=
  st.events.filter (fun e => e.source_ip == ip)

/-- Modelled from the spec: the flat-mode rendering; with no events the
rendered DAG output is empty (spec section 4.5). -/
def renderFlat (st : ParserState) : String :=
  String.intercalate "\n" (st.events.map (fun e => e.timestamp ++ " ---> " ++ e.description))

/-! ## IncidentAssembler deduplication (spec section 4.4) -/

/-- Two adjacent events merge when IP, category and description (the
target) coincide (spec section 4.4). -/
def mergeKey (a b : EvidenceEvent) : Bool :=
  a.source_ip == b.source_ip && a.category == b.category && a.description == b.description

/-- Modelled from the spec: adjacent near-identical events are merged,
summing `repeat_count` (spec section 4.4). -/
def dedupAdjacent : List EvidenceEvent → List EvidenceEvent
  | [] => []
  | e :: rest =>
    match dedupAdjacent rest with
    | [] => [e]
    | f :: fs =>
      if mergeKey e f then { e with repeat_count := e.repeat_count + f.repeat_count } :: fs
      else e :: f :: fs

/-! ## JSONL/IDEA records and the two-pass incident parse (spec
sections 4.3 and 9; `alert_dag_parser.py` is not in the repository
snapshot, so this is modelled from the spec). -/

/-- One Event record's payload (ID, severity and free text). -/
structure IdeaEvent where
  id : String
  threat : ThreatLevel
  desc : String
deriving DecidableEq, Repr

/-- A JSONL/IDEA record: an `Incident` header with its `CorrelID` list
and optional explicit `Severity`, or an `Event` record (spec section 6). -/
inductive IdeaRecord
  | incident (id : String) (correlIds : List String) (severity : Option ThreatLevel)
  | event (e : IdeaEvent)
deriving DecidableEq, Repr

/-- The top-level aggregate exposed to renderers (spec section 3). -/
structure Incident where
  id : String
  correlIds : List String
  explicitSeverity : Option ThreatLevel
  events : List IdeaEvent
deriving DecidableEq, Repr

/-- Modelled from the spec: pass 1 of the JSONL parse collects the
`Incident` headers, in file order, with empty event lists (spec section
4.3). -/
def collectIncidents : List IdeaRecord → List Incident
  | [] => []
  | .incident i c s :: rest => { id := i, correlIds := c, explicitSeverity := s, events := [] } :: collectIncidents rest
  | .event _ :: rest => collectIncidents rest

/-- Attach one event to an incident when its ID is named by the
incident's `CorrelID` list. -/
def attachOne (e : IdeaEvent) (inc : Incident) : Incident :=
  if inc.correlIds.contains e.id then { inc with events := inc.events ++ [e] } else inc

/-- Modelled from the spec: pass 2 walks the records again, attaching
each `Event` record to every incident whose `CorrelID` list names its ID
(spec section 4.3: events may precede or follow their incident record). -/
def attachPass (incs : List Incident) : List IdeaRecord → List Incident
  | [] => incs
  | .incident _ _ _ :: rest => attachPass incs rest
  | .event e :: rest => attachPass (incs.map (attachOne e)) rest

/-- Modelled from the spec: the whole two-pass JSONL/IDEA parse. -/
def parseIdea (rs : List IdeaRecord) : List Incident :=
  attachPass (collectIncidents rs) rs

/-- The event records of `rs` whose ID appears in `cids`, in file order. -/
def matchingEvents (cids : List String) : List IdeaRecord → List IdeaEvent
  | [] => []
  | .incident _ _ _ :: rest => matchingEvents cids rest
  | .event e :: rest =>
    if cids.contains e.id then e :: matchingEvents cids rest else matchingEvents cids rest

/-! ## IncidentAssembler filtering and severity roll-up (spec section
4.4; modelled from the spec). -/

/-- The filtering configuration of spec section 4.4: `min_threat` drops
events below a threshold, `max_events` keeps the first N after
filtering. -/
structure AssembleConfig where
  minThreat : ThreatLevel
  maxEvents : Option Nat
deriving Repr

/-- Modelled from the spec: the filter pipeline — drop events below
`min_threat`, then keep the first `max_events` (spec section 4.4). -/
def applyFilters (cfg : AssembleConfig) (evs : List IdeaEvent) : List IdeaEvent :=
  let kept := evs.filter (fun e => cfg.minThreat.rank ≤ e.threat.rank)
  match cfg.maxEvents with
  | some n => kept.take n
  | none => kept

/-- Modelled from the spec: the maximum threat level among a list of
events, `info` for an empty list (spec section 4.4). -/
def rollupSeverity (evs : List IdeaEvent) : ThreatLevel :=
  evs.foldl (fun acc e => tlMax acc e.threat) .info

/-- An incident as handed to the renderer: identifier, rolled-up
severity, and the retained (filtered) events. -/
structure AssembledIncident where
  id : String
  severity : ThreatLevel
  retained : List IdeaEvent
deriving Repr

/-- Modelled from the spec: incident assembly (spec section 4.4).  The
severity is the explicit JSONL `Severity` if present, otherwise the
maximum threat level over the incident's events, computed before the
`min_threat`/`max_events` filters are applied. -/
def assembleIncident (cfg : AssembleConfig) (inc : Incident) : AssembledIncident :=
  { id := inc.id
    severity :=
      match inc.explicitSeverity with
      | some s => s
      | none => rollupSeverity inc.events
    retained := applyFilters cfg inc.events }

/-! ## The shell drivers' JSON dataset files

Both `generate_dataset.sh` and `generate_dataset_alerts.sh` build the
output file from a fixed set of write commands.  The file content is
modelled at the granularity of those writes: the opening
`{"dataset": [` line, one JSON entry block per processed alert, the `,`
separator line, and the closing `]}` line. -/

/-- One structural token of the dataset output file. -/
inductive DatasetTok
  | openT
  | entryT (i : Nat)
  | commaT
  | closeT
deriving DecidableEq, Repr

/-- The token rendering of a comma-separated entry sequence. -/
def entrySeps : List Nat → List DatasetTok
  | [] => []
  | [i] => [.entryT i]
  | i :: j :: rest => .entryT i :: .commaT :: entrySeps (j :: rest)

/-- A dataset file is syntactically valid exactly when it is the opening
token, a comma-separated entry sequence, and the closing token. -/
def ValidDatasetFile (l : List DatasetTok) : Prop :=
  ∃ ids : List Nat, l = .openT :: entrySeps ids ++ [.closeT]

/-! ## generate_dataset.sh (plain-text driver, in src) -/

/-- The DAG-output block separator: a line of sixty equals signs
(generate_dataset.sh line 366). -/
def sepLine : String :=
  String.mk (List.replicate 60 '=')

/-- A line of only spaces and tabs, as deleted by the
`sed /^[[:space:]]*$/d` trim (generate_dataset.sh line 369). -/
def isBlankLine (s : String) : Bool :=
  s.toList.all (fun c => c == ' ' || c == '\t')

/-- Split a line list at the separator lines (generate_dataset.sh lines
365-394). -/
def splitOnSep : List String → List (List String)
  | [] => [[]]
  | l :: ls =>
    let rest := splitOnSep ls
    if l == sepLine then [] :: rest
    else
      match rest with
      | b :: bs => (l :: b) :: bs
      | [] => [[l]]

/-- The alert blocks of the DAG output: split at separator lines, delete
blank lines, keep the nonempty blocks (generate_dataset.sh lines
356-399). -/
def dagBlocks (dag : String) : List (List String) :=
  (((splitOnSep (dag.splitOn "\n")).map
      (fun b => b.filter (fun l => !isBlankLine l))).filter
    (fun b => !b.isEmpty))

/-- Embedding of the dataset phase of generate_dataset.sh main (lines
329-479): empty DAG output or zero parsed blocks write `{"dataset": []}`
and exit 0; otherwise one entry per block is emitted, comma-separated,
and the file is closed with `]}`.  The LLM calls are external
collaborators and are treated as returning text. -/
def generateDatasetSh (dagOutput : String) : Nat × List DatasetTok :=
  if dagOutput == "" then (0, [.openT, .closeT])
  else
    let blocks := dagBlocks dagOutput
    if blocks.isEmpty then (0, [.openT, .closeT])
    else (0, .openT :: entrySeps (List.range' 1 blocks.length) ++ [.closeT])

/-! ## generate_dataset_alerts.sh (JSONL driver, in src) -/

/-- The fixed string grep looks for to count Incident records
(generate_dataset_alerts.sh line 281). -/
def incidentPat : String :=
  "\"Status\": \"Incident\""

/-- The fixed string grep looks for to count Event records
(generate_dataset_alerts.sh line 290). -/
def eventPat : String :=
  "\"Status\": \"Event\""

/-- The number of input lines containing `pat`, as computed by
`grep -c pat file`. -/
def grepCount (pat : String) (lines : List String) : Nat :=
  lines.countP (fun l => hasSub l pat)

/-- The lines captured by `$(grep -c pat file 2>/dev/null || echo "0")`
(generate_dataset_alerts.sh lines 281 and 290): grep always prints the
count, and exits nonzero when it is 0, in which case the `|| echo "0"`
fallback prints a second line. -/
def grepCountCapture (n : Nat) : List Nat :=
  if n == 0 then [0, 0] else [n]

/-- The bash test `[[ "$x" -eq 0 ]]` applied to a captured value: a
single-line numeric capture compares normally; a multi-line capture is an
arithmetic syntax error inside `[[ ]]`, which evaluates falsy (status 2)
without aborting the `if`. -/
def bashCaptureEqZero : List Nat → Bool
  | [n] => n == 0
  | _ => false

/-- Outcome of validate_alert_file. -/
inductive ValidateOutcome
  | fatalFormat
  | fatalNoIncidents
  | okRun (eventWarning : Bool)
deriving DecidableEq, Repr

/-- Embedding of validate_alert_file (generate_dataset_alerts.sh lines
269-298).  `jsonOk` models the external `head -1 | python3 -m json.tool`
check on the first line; the Incident and Event counts go through the
grep capture and `[[ -eq 0 ]]` semantics above; a true Incident-count
test is a fatal error, a true Event-count test only sets the warning. -/
def validateAlertFile (jsonOk : String → Bool) (lines : List String) : ValidateOutcome :=
  if !jsonOk (lines.headD "") then .fatalFormat
  else if bashCaptureEqZero (grepCountCapture (grepCount incidentPat lines)) then .fatalNoIncidents
  else .okRun (bashCaptureEqZero (grepCountCapture (grepCount eventPat lines)))

/-- Phase reached by a run of generate_dataset_alerts.sh main. -/
inductive AlertsRunPhase
  | abortedValidation
  | reachedLlmWork
deriving DecidableEq, Repr

/-- Embedding of the validation gate of generate_dataset_alerts.sh main
(lines 399-402): a fatal validation outcome exits 1 before the LLM
connectivity test and the parser run; otherwise the run proceeds to
them. -/
def alertsMainGate (jsonOk : String → Bool) (lines : List String) : Nat × AlertsRunPhase :=
  match validateAlertFile jsonOk lines with
  | .fatalFormat => (1, .abortedValidation)
  | .fatalNoIncidents => (1, .abortedValidation)
  | .okRun _ => (0, .reachedLlmWork)

/-- Modelled from the spec: per-record handling of JSONL lines in the
parser itself (`alert_dag_parser.py` is not in the repository snapshot;
spec section 7): a line that fails JSON decoding is dropped and a warning
counted, parsing continues with the remaining records.  `decode` models
the external JSON decoder. -/
def decodeLines (decode : String → Option IdeaRecord) : List String → List IdeaRecord × Nat
  | [] => ([], 0)
  | l :: ls =>
    let rest := decodeLines decode ls
    match decode l with
    | some r => (r :: rest.fst, rest.snd)
    | none => (rest.fst, rest.snd + 1)

/-- Result of the alert-processing loop of generate_dataset_alerts.sh:
either the loop finished and the file was closed, or a failed command
aborted the script under `set -e`, leaving the file as written so far. -/
inductive RunResult
  | finished (file : List DatasetTok)
  | setEAbort (file : List DatasetTok)
deriving DecidableEq, Repr

/-- State of the alert-processing loop (generate_dataset_alerts.sh lines
493-499): the file tokens written so far, the first_entry flag, and the
failed_alerts and current_alert counters. -/
structure AlertsLoopState where
  file : List DatasetTok
  firstEntry : Bool
  failedAlerts : Nat
  currentAlert : Nat
deriving Repr

/-- Embedding of the per-alert loop and the closing writes of
generate_dataset_alerts.sh main (lines 501-589).  Each entry of
`outcomes` is whether that alert's LLM analyses succeed.  On success the
`,` separator (unless first) and the entry block are appended.  On
failure the script runs `((failed_alerts++))`: bash `(( ))` fails when the
expression's value — the old counter value — is zero, so under
`set -euo pipefail` the first failure aborts the script before the file
is closed.  After the loop, `]}` is appended. -/
def processAlerts (st : AlertsLoopState) : List Bool → RunResult
  | [] => .finished (st.file ++ [.closeT])
  | ok :: rest =>
    if ok then
      let file1 := if st.firstEntry then st.file else st.file ++ [.commaT]
      processAlerts
        { file := file1 ++ [.entryT st.currentAlert]
          firstEntry := false
          failedAlerts := st.failedAlerts
          currentAlert := st.currentAlert + 1 } rest
    else
      if st.failedAlerts == 0 then .setEAbort st.file
      else
        processAlerts
          { st with
            failedAlerts := st.failedAlerts + 1
            currentAlert := st.currentAlert + 1 } rest

/-- A full run of the alert-processing phase: the file is initialized
with `{"dataset": [` (line 494) and the loop is run from first_entry =
true, failed_alerts = 0, current_alert = 1. -/
def runAlertsScript (outcomes : List Bool) : RunResult :=
  processAlerts { file := [.openT], firstEntry := true, failedAlerts := 0, currentAlert := 1 } outcomes

/-! ## Threat-level lemmas -/

theorem tlMax_rank (a b : ThreatLevel) : (tlMax a b).rank = Nat.max a.rank b.rank := by
  unfold tlMax
  split
  · exact (Nat.max_eq_right (by assumption)).symm
  · exact (Nat.max_eq_left (Nat.le_of_not_le (by assumption))).symm

theorem tlMax_info (b : ThreatLevel) : tlMax ThreatLevel.info b = b := by
  unfold tlMax
  simp [ThreatLevel.rank]

theorem tlMax_eq_or (a b : ThreatLevel) : tlMax a b = a ∨ tlMax a b = b := by
  unfold tlMax
  split
  · exact Or.inr rfl
  · exact Or.inl rfl

theorem foldl_tlMax_acc_le (evs : List IdeaEvent) :
    ∀ acc : ThreatLevel, acc.rank ≤ (evs.foldl (fun a e => tlMax a e.threat) acc).rank := by
  induction evs with
  | nil => intro acc; exact Nat.le_refl _
  | cons e rest ih =>
    intro acc
    have h1 : acc.rank ≤ (tlMax acc e.threat).rank := by rw [tlMax_rank]; exact Nat.le_max_left _ _
    exact Nat.le_trans h1 (ih (tlMax acc e.threat))

theorem foldl_tlMax_ub (evs : List IdeaEvent) :
    ∀ (acc : ThreatLevel) (e : IdeaEvent), e ∈ evs →
      e.threat.rank ≤ (evs.foldl (fun a x => tlMax a x.threat) acc).rank := by
  induction evs with
  | nil => intro acc e he; cases he
  | cons a rest ih =>
    intro acc e he
    rcases List.mem_cons.mp he with h | h
    · subst h
      have h1 : e.threat.rank ≤ (tlMax acc e.threat).rank := by rw [tlMax_rank]; exact Nat.le_max_right _ _
      exact Nat.le_trans h1 (foldl_tlMax_acc_le rest (tlMax acc e.threat))
    · exact ih (tlMax acc a.threat) e h

theorem foldl_tlMax_mem (evs : List IdeaEvent) :
    ∀ acc : ThreatLevel,
      evs.foldl (fun a x => tlMax a x.threat) acc ∈ acc :: evs.map (fun e => e.threat) := by
  induction evs with
  | nil => intro acc; exact List.mem_singleton.mpr rfl
  | cons a rest ih =>
    intro acc
    have h := ih (tlMax acc a.threat)
    simp only [List.foldl_cons, List.map_cons]
    rcases List.mem_cons.mp h with h | h
    · rw [h]
      rcases tlMax_eq_or acc a.threat with h2 | h2 <;> rw [h2] <;> simp
    · exact List.mem_cons.mpr (Or.inr (List.mem_cons.mpr (Or.inr h)))

theorem rollupSeverity_ub (evs : List IdeaEvent) (e : IdeaEvent) (he : e ∈ evs) :
    e.threat.rank ≤ (rollupSeverity evs).rank :=
  foldl_tlMax_ub evs ThreatLevel.info e he

theorem rollupSeverity_mem (evs : List IdeaEvent) (h : evs ≠ []) :
    rollupSeverity evs ∈ evs.map (fun e => e.threat) := by
  match evs, h with
  | e :: rest, _ =>
    have : rollupSeverity (e :: rest) = rest.foldl (fun a x => tlMax a x.threat) e.threat := by
      unfold rollupSeverity
      simp [List.foldl_cons, tlMax_info]
    rw [this]
    simpa using foldl_tlMax_mem rest e.threat

/-- C5: for every Incident, its severity equals the maximum threat_level
among its contained events — an upper bound over all events, attained on
a nonempty event list — and it is computed over the pre-filter event set:
the same for every `min_threat`/`max_events` configuration; an explicit
severity field from JSONL input overrides it. -/
theorem C5_severity_rollup (cfg cfg' : AssembleConfig) (inc : Incident) :
    (assembleIncident cfg inc).severity = (assembleIncident cfg' inc).severity ∧
    (∀ s, inc.explicitSeverity = some s → (assembleIncident cfg inc).severity = s) ∧
    (inc.explicitSeverity = none →
      (assembleIncident cfg inc).severity = rollupSeverity inc.events ∧
      (∀ e ∈ inc.events, e.threat.rank ≤ ((assembleIncident cfg inc).severity).rank) ∧
      (inc.events ≠ [] →
        (assembleIncident cfg inc).severity ∈ inc.events.map (fun e => e.threat))) := by
  refine ⟨rfl, ?_, ?_⟩
  · intro s hs
    simp [assembleIncident, hs]
  · intro hn
    have hv : (assembleIncident cfg inc).severity = rollupSeverity inc.events := by
      simp [assembleIncident, hn]
    refine ⟨hv, ?_, ?_⟩
    · intro e he
      rw [hv]
      exact rollupSeverity_ub inc.events e he
    · intro hne
      rw [hv]
      exact rollupSeverity_mem inc.events hne

/-- Witness for C5 at a concrete incident with events of threat levels
low and critical and no explicit severity. -/
theorem C5_severity_rollup_witness :
    let inc : Incident :=
      { id := "i1", correlIds := [], explicitSeverity := none,
        events := [{ id := "e1", threat := .low, desc := "a" }, { id := "e2", threat := .critical, desc := "b" }] }
    (assembleIncident { minThreat := .high, maxEvents := some 1 } inc).severity = rollupSeverity inc.events ∧
    (assembleIncident { minThreat := .high, maxEvents := some 1 } inc).severity ∈ inc.events.map (fun e => e.threat) := by
  intro inc
  have h := C5_severity_rollup { minThreat := .high, maxEvents := some 1 }
    { minThreat := .info, maxEvents := none } inc
  have h3 := h.2.2 rfl
  exact ⟨h3.1, h3.2.2 (by decide)⟩

theorem mem_applyFilters_rank {cfg : AssembleConfig} {evs : List IdeaEvent} {e : IdeaEvent}
    (he : e ∈ applyFilters cfg evs) : cfg.minThreat.rank ≤ e.threat.rank := by
  unfold applyFilters at he
  have hf : e ∈ evs.filter (fun x => cfg.minThreat.rank ≤ x.threat.rank) := by
    cases h : cfg.maxEvents with
    | none => rw [h] at he; exact he
    | some n => rw [h] at he; exact List.mem_of_mem_take he
  have := (List.mem_filter.mp hf).2
  exact of_decide_eq_true this

/-- C6: with `min_threat = high`, every event in an Incident's retained
set after filtering has threat level at least high, i.e. high or
critical; no event below the threshold appears. -/
theorem C6_min_threat_filter (cfg : AssembleConfig) (inc : Incident) (e : IdeaEvent)
    (hcfg : cfg.minThreat = ThreatLevel.high)
    (he : e ∈ (assembleIncident cfg inc).retained) :
    ThreatLevel.high.rank ≤ e.threat.rank ∧
    (e.threat = ThreatLevel.high ∨ e.threat = ThreatLevel.critical) := by
  have hr : cfg.minThreat.rank ≤ e.threat.rank := mem_applyFilters_rank he
  rw [hcfg] at hr
  refine ⟨hr, ?_⟩
  cases h : e.threat <;> rw [h] at hr <;> simp [ThreatLevel.rank] at hr <;> simp

/-- Witness for C6 at a concrete incident containing a critical event
that survives the high threshold. -/
theorem C6_min_threat_filter_witness :
    ThreatLevel.high.rank ≤ (ThreatLevel.critical : ThreatLevel).rank ∧
    ((IdeaEvent.mk "e2" .critical "b").threat = ThreatLevel.high ∨
      (IdeaEvent.mk "e2" .critical "b").threat = ThreatLevel.critical) := by
  have h := C6_min_threat_filter { minThreat := .high, maxEvents := none }
    { id := "i1", correlIds := [], explicitSeverity := none,
      events := [{ id := "e1", threat := .low, desc := "a" }, { id := "e2", threat := .critical, desc := "b" }] }
    (IdeaEvent.mk "e2" .critical "b") rfl (by decide)
  exact h

/-! ## C3: first-match-wins category classification -/

theorem classify_eq_firstMatch (d : String) : classify d = firstMatchCategory d := by
  unfold classify firstMatchCategory categoryMatchers
  split_ifs with h1 h2 h3 h4 h5 h6 h7 h8 h9 h10 <;>
    simp_all [List.find?_cons_of_pos, List.find?_cons_of_neg, List.find?_nil]

/-- C3: category classification is first-match-wins over the ordered
matcher list, and each of the 8 evidence categories of the example
dataset is recognized from a one-line sample carrying its signature
phrase, never as Unknown. -/
theorem C3_first_match_classification :
    (∀ d : String, classify d = firstMatchCategory d) ∧
    classify "Horizontal scan to port 443. (Targets: 1 IPs, Packets: 5)" = Category.PortScan ∧
    classify "Connection to blacklisted 219.199.155.222 (AS: GIGAINFRA SoftBank Corp.)" = Category.BlacklistedIP ∧
    classify "C&C Channel: Connection to 88.11.164.60:443 (Score: 0.9910.)" = Category.CCChannel ∧
    classify "Non-HTTP connection to 109.168.218.206:80" = Category.SuspiciousConnection ∧
    classify "Connection to private IP 192.168.1.255:137" = Category.PrivateIPConnection ∧
    classify "Connection without DNS resolution to 210.108.151.58" = Category.DNSIssue ∧
    classify "Unencrypted HTTP traffic to 13.107.4.50." = Category.UnencryptedTraffic ∧
    classify "horizontal port scan by Zeek engine. scanned at least 25 unique hosts on port 443/tcp .. with threat level high and confidence 1" = Category.GenericEvidence ∧
    (Category.PortScan ≠ Category.Unknown ∧ Category.BlacklistedIP ≠ Category.Unknown ∧
      Category.CCChannel ≠ Category.Unknown ∧ Category.SuspiciousConnection ≠ Category.Unknown ∧
      Category.PrivateIPConnection ≠ Category.Unknown ∧ Category.DNSIssue ≠ Category.Unknown ∧
      Category.UnencryptedTraffic ≠ Category.Unknown ∧ Category.GenericEvidence ≠ Category.Unknown) :=
  ⟨classify_eq_firstMatch, by decide, by decide, by decide, by decide, by decide, by decide,
    by decide, by decide, by decide⟩

/-! ## C10: the Incident/Event validation gate of
generate_dataset_alerts.sh -/

/-- A JSONL file whose first line is valid JSON but which contains no
Incident line: a single Event record. -/
def c10NoIncidentFile : List String :=
  ["\x7b\"Status\": \"Event\", \"ID\": \"e1\"\x7d"]

/-- A JSONL file with an Incident line and no Event lines. -/
def c10NoEventFile : List String :=
  ["\x7b\"Status\": \"Incident\", \"ID\": \"i1\", \"CorrelID\": [\"e1\"]\x7d"]

/-- C10: evaluating validate_alert_file at its failing inputs.  On a
first-line-valid file with no `"Status": "Incident"` line the captured
incident count is the two-line `0\n0` (grep prints the zero count and
exits nonzero, so `|| echo "0"` appends a second line), the
`[[ -eq 0 ]]` test is an arithmetic error evaluating falsy, and the run
proceeds to LLM work instead of aborting with exit 1.  On a file with
Incidents but no Events, the same capture defect also suppresses the
documented warning, though processing does continue. -/
theorem C10_validation_gate_defeated :
    grepCount incidentPat c10NoIncidentFile = 0 ∧
    grepCountCapture 0 = [0, 0] ∧
    bashCaptureEqZero [0, 0] = false ∧
    validateAlertFile (fun _ => true) c10NoIncidentFile = ValidateOutcome.okRun false ∧
    alertsMainGate (fun _ => true) c10NoIncidentFile = (0, AlertsRunPhase.reachedLlmWork) ∧
    grepCount eventPat c10NoEventFile = 0 ∧
    validateAlertFile (fun _ => true) c10NoEventFile = ValidateOutcome.okRun false ∧
    alertsMainGate (fun _ => true) c10NoEventFile = (0, AlertsRunPhase.reachedLlmWork) := by
  refine ⟨by decide, rfl, rfl, by decide, by decide, by decide, by decide, by decide⟩

/-! ## C1: empty / fully-unrecognizable input -/

theorem foldSteps_no_header (ls : List String) :
    ∀ st : ParserState, (∀ l ∈ ls, headerLine? l = none) → st.curHeader = none →
      foldSteps st ls = { st with skipped := st.skipped + ls.length } := by
  induction ls with
  | nil => intro st _ _; simp [foldSteps]
  | cons l rest ih =>
    intro st hls hcur
    have hl : headerLine? l = none := hls l (List.mem_cons_self l rest)
    have hstep : stepLine st l = { st with skipped := st.skipped + 1 } := by
      unfold stepLine
      rw [hl, hcur]
    have : foldSteps st (l :: rest) = foldSteps (stepLine st l) rest := by
      simp [foldSteps, List.foldl_cons]
    rw [this, hstep]
    rw [ih { events := st.events, curHeader := st.curHeader, skipped := st.skipped + 1 }
      (fun x hx => hls x (List.mem_cons_of_mem l hx)) hcur]
    simp only [List.length_cons]
    congr 1
    omega

/-- C1: an input file with zero parseable lines (no line matches any
recognized shape — in particular an empty file) parses successfully into
zero events and zero incidents, the statistics block reports 0 events
with every line counted as skipped, the rendered DAG output is empty, and
the generate_dataset.sh empty branch then writes the valid empty dataset
`{"dataset": []}` and exits 0 — no error and no nonzero failure signal. -/
theorem C1_empty_input (ls : List String) (h : ∀ l ∈ ls, headerLine? l = none) :
    (plainParse ls).events = [] ∧
    totalEvents (plainParse ls) = 0 ∧
    ipsOf (plainParse ls) = [] ∧
    statsLine (plainParse ls) = "Summary of 0 evidence events:" ∧
    (plainParse ls).skipped = ls.length ∧
    renderFlat (plainParse ls) = "" ∧
    generateDatasetSh (renderFlat (plainParse ls)) = (0, [DatasetTok.openT, DatasetTok.closeT]) ∧
    ValidDatasetFile [DatasetTok.openT, DatasetTok.closeT] := by
  have hp : plainParse ls = { events := [], curHeader := none, skipped := ls.length } := by
    unfold plainParse
    rw [foldSteps_no_header ls initState h rfl]
    simp [initState]
  rw [hp]
  refine ⟨rfl, rfl, rfl, ?_, rfl, rfl, rfl, ⟨[], rfl⟩⟩
  have h2 : statsLine { events := [], curHeader := none, skipped := ls.length }
      = statsLine { events := [], curHeader := none, skipped := 0 } := rfl
  rw [h2]
  decide

/-- Witness for C1 at a concrete three-line unparseable input. -/
theorem C1_empty_input_witness :
    (plainParse ["", "log framework noise", "- orphan bullet"]).events = [] ∧
    statsLine (plainParse ["", "log framework noise", "- orphan bullet"]) = "Summary of 0 evidence events:" ∧
    generateDatasetSh (renderFlat (plainParse ["", "log framework noise", "- orphan bullet"])) =
      (0, [DatasetTok.openT, DatasetTok.closeT]) := by
  have h := C1_empty_input ["", "log framework noise", "- orphan bullet"] (by decide)
  exact ⟨h.1, h.2.2.2.1, h.2.2.2.2.2.2.1⟩

/-! ## C2: repeat_count semantics and adjacent deduplication -/

theorem updateLast_concat (f : α → α) : ∀ (init : List α) (a : α),
    updateLast f (init ++ [a]) = init ++ [f a]
  | [], a => rfl
  | [x], a => rfl
  | x :: y :: rest, a => by
    have ih := updateLast_concat f (y :: rest) a
    show x :: updateLast f (y :: (rest ++ [a])) = x :: (y :: rest ++ [f a])
    simp only [List.cons_append] at ih
    rw [ih]
    simp

theorem concat_isEmpty_false (init : List α) (a : α) : (init ++ [a]).isEmpty = false := by
  cases init <;> rfl

theorem dedup_replicate (e : EvidenceEvent) (h1 : e.repeat_count = 1) :
    ∀ N : Nat, 1 ≤ N →
      dedupAdjacent (List.replicate N e) = [{ e with repeat_count := N }] := by
  intro N
  induction N with
  | zero => intro h; omega
  | succ n ih =>
    intro _
    cases Nat.eq_zero_or_pos n with
    | inl h0 =>
      subst h0
      show dedupAdjacent [e] = [{ e with repeat_count := 1 }]
      have : ({ e with repeat_count := 1 } : EvidenceEvent) = e := by
        cases e
        simp_all
      rw [this]
      rfl
    | inr hn =>
      have ihn := ih hn
      show dedupAdjacent (e :: List.replicate n e) = [{ e with repeat_count := n + 1 }]
      unfold dedupAdjacent
      rw [ihn]
      have hm : mergeKey e { e with repeat_count := n } = true := by
        simp [mergeKey]
      simp only [hm, if_true]
      have : e.repeat_count + ({ e with repeat_count := n } : EvidenceEvent).repeat_count = n + 1 := by
        simp [h1]
        omega
      simp [this]

theorem foldSteps_bullets (bl d : String) (hh : headerLine? bl = none)
    (hb : bulletLine? bl = some d) :
    ∀ (N : Nat) (st : ParserState) (ts ip : String), st.curHeader = some (ts, ip) →
      foldSteps st (List.replicate N bl)
        = { st with events := st.events ++ List.replicate N (mkEvent ts ip d) } := by
  intro N
  induction N with
  | zero =>
    intro st ts ip _
    simp [foldSteps, List.replicate]
  | succ n ih =>
    intro st ts ip hcur
    have hstep : stepLine st bl = { st with events := st.events ++ [mkEvent ts ip d] } := by
      unfold stepLine
      rw [hh, hcur, hb]
    have hfold : foldSteps st (List.replicate (n + 1) bl)
        = foldSteps (stepLine st bl) (List.replicate n bl) := by
      simp [foldSteps, List.replicate_succ, List.foldl_cons]
    rw [hfold, hstep]
    rw [ih { st with events := st.events ++ [mkEvent ts ip d] } ts ip hcur]
    simp [List.replicate_succ, List.append_assoc]

/-- C2: a `(+ N similar events)` line sets `repeat_count = N+1` on the
just-emitted event and creates no additional event (length and all
earlier events unchanged); and a header followed by N >= 1 identical
adjacent evidence lines yields, after deduplication, exactly one
EvidenceEvent with `repeat_count = N`. -/
theorem C2_repeat_count_semantics :
    (∀ (st : ParserState) (l : String) (n : Nat) (hd : String × String),
        st.curHeader = some hd → headerLine? l = none → bulletLine? l = none →
        similarLine? l = some n → st.events ≠ [] →
        (stepLine st l).events.length = st.events.length ∧
        (stepLine st l).events.dropLast = st.events.dropLast ∧
        (stepLine st l).events.getLast? =
          st.events.getLast?.map (fun e => { e with repeat_count := n + 1 })) ∧
    (∀ (hdr bl ts ip d : String) (N : Nat), 1 ≤ N →
        headerLine? hdr = some (ts, ip) → headerLine? bl = none → bulletLine? bl = some d →
        dedupAdjacent (plainParse (hdr :: List.replicate N bl)).events
          = [{ mkEvent ts ip d with repeat_count := N }]) := by
  constructor
  · intro st l n hd hcur hlh hlb hls hne
    obtain ⟨ts, ip⟩ := hd
    rcases List.eq_nil_or_concat st.events with h | ⟨init, a, h⟩
    · exact absurd h hne
    rw [List.concat_eq_append] at h
    have hstep : stepLine st l
        = { st with events := updateLast (fun e => { e with repeat_count := n + 1 }) st.events } := by
      unfold stepLine
      rw [hlh, hcur, hlb, hls]
      have hie : st.events.isEmpty = false := by
        rw [h]
        exact concat_isEmpty_false init a
      simp [hie]
    rw [hstep]
    refine ⟨?_, ?_, ?_⟩
    · show (updateLast _ st.events).length = st.events.length
      rw [h, updateLast_concat]
      simp
    · show (updateLast _ st.events).dropLast = st.events.dropLast
      rw [h, updateLast_concat, List.dropLast_concat, List.dropLast_concat]
    · show (updateLast _ st.events).getLast? = st.events.getLast?.map _
      rw [h, updateLast_concat, List.getLast?_concat, List.getLast?_concat]
      rfl
  · intro hdr bl ts ip d N hN hhdr hblh hbl
    have hp : plainParse (hdr :: List.replicate N bl)
        = foldSteps { initState with curHeader := some (ts, ip) } (List.replicate N bl) := by
      unfold plainParse
      have : foldSteps initState (hdr :: List.replicate N bl)
          = foldSteps (stepLine initState hdr) (List.replicate N bl) := by
        simp [foldSteps, List.foldl_cons]
      rw [this]
      have : stepLine initState hdr = { initState with curHeader := some (ts, ip) } := by
        unfold stepLine
        rw [hhdr]
      rw [this]
    rw [hp, foldSteps_bullets bl d hblh hbl N _ ts ip rfl]
    show dedupAdjacent ([] ++ List.replicate N (mkEvent ts ip d)) = _
    rw [List.nil_append]
    exact dedup_replicate (mkEvent ts ip d) rfl N hN

/-- Witness for C2: a concrete header plus three identical Non-HTTP
bullets collapse to one event with repeat_count 3, and a concrete
`(+ 2 similar events)` line sets the last event's repeat_count to 3. -/
theorem C2_repeat_count_semantics_witness :
    ((stepLine
        { events := [mkEvent "t0" "10.0.0.5" "Non-HTTP connection to 1.2.3.4:80"],
          curHeader := some ("t0", "10.0.0.5"), skipped := 0 }
        "  (+ 2 similar events)").events.getLast? =
      some { mkEvent "t0" "10.0.0.5" "Non-HTTP connection to 1.2.3.4:80" with repeat_count := 3 }) ∧
    dedupAdjacent (plainParse
        ("2023/11/03 23:27:41 [evidence.py:1] [INFO] [IP 192.168.1.113] given the following evidence:"
          :: List.replicate 3 "- Non-HTTP connection to 109.168.218.206:80. Threat Level: medium | Confidence: 0.8")).events
      = [{ mkEvent "2023/11/03 23:27:41" "192.168.1.113"
            "Non-HTTP connection to 109.168.218.206:80. Threat Level: medium | Confidence: 0.8"
            with repeat_count := 3 }] := by
  constructor
  · have h := (C2_repeat_count_semantics.1
      { events := [mkEvent "t0" "10.0.0.5" "Non-HTTP connection to 1.2.3.4:80"],
        curHeader := some ("t0", "10.0.0.5"), skipped := 0 }
      "  (+ 2 similar events)" 2 ("t0", "10.0.0.5") rfl (by decide) (by decide) (by decide)
      (by decide)).2.2
    rw [h]
    rfl
  · exact C2_repeat_count_semantics.2
      "2023/11/03 23:27:41 [evidence.py:1] [INFO] [IP 192.168.1.113] given the following evidence:"
      "- Non-HTTP connection to 109.168.218.206:80. Threat Level: medium | Confidence: 0.8"
      "2023/11/03 23:27:41" "192.168.1.113"
      "Non-HTTP connection to 109.168.218.206:80. Threat Level: medium | Confidence: 0.8"
      3 (by omega) (by decide) (by decide) (by decide)

/-! ## C4: correlation completeness of the two-pass JSONL parse -/

theorem map_events_append_nil (incs : List Incident) :
    incs.map (fun inc => { inc with events := inc.events ++ [] }) = incs := by
  induction incs with
  | nil => rfl
  | cons i is ih => simp [ih]

theorem attachPass_eq : ∀ (rs : List IdeaRecord) (incs : List Incident),
    attachPass incs rs
      = incs.map (fun inc => { inc with events := inc.events ++ matchingEvents inc.correlIds rs })
  | [], incs => by
    show incs = _
    have h : (fun inc : Incident => { inc with events := inc.events ++ matchingEvents inc.correlIds [] })
        = (fun inc : Incident => { inc with events := inc.events ++ [] }) := rfl
    rw [h, map_events_append_nil]
  | .incident i c s :: rest, incs => by
    show attachPass incs rest = _
    rw [attachPass_eq rest incs]
    rfl
  | .event e :: rest, incs => by
    show attachPass (incs.map (attachOne e)) rest = _
    rw [attachPass_eq rest (incs.map (attachOne e))]
    rw [List.map_map]
    apply List.map_congr_left
    intro inc _
    simp only [Function.comp]
    by_cases hc : inc.correlIds.contains e.id = true
    · have ha : attachOne e inc = { inc with events := inc.events ++ [e] } := by
        unfold attachOne
        rw [if_pos hc]
      rw [ha]
      have hmm : e.id ∈ inc.correlIds := by simpa using hc
      have hm : matchingEvents inc.correlIds (IdeaRecord.event e :: rest)
          = e :: matchingEvents inc.correlIds rest := by
        simp [matchingEvents, hmm]
      show ({ inc with events := (inc.events ++ [e]) ++ matchingEvents inc.correlIds rest } : Incident) = _
      rw [hm]
      simp
    · have hcf : inc.correlIds.contains e.id = false := by simpa using hc
      have ha : attachOne e inc = inc := by
        unfold attachOne
        rw [if_neg hc]
      rw [ha]
      have hmm : e.id ∉ inc.correlIds := by simpa using hcf
      have hm : matchingEvents inc.correlIds (IdeaRecord.event e :: rest)
          = matchingEvents inc.correlIds rest := by
        simp [matchingEvents, hmm]
      rw [hm]

theorem mem_matchingEvents (ev : IdeaEvent) (cids : List String) :
    ∀ rs : List IdeaRecord,
      (ev ∈ matchingEvents cids rs ↔ (IdeaRecord.event ev ∈ rs ∧ ev.id ∈ cids))
  | [] => by simp [matchingEvents]
  | .incident i c s :: rest => by
    have ih := mem_matchingEvents ev cids rest
    show ev ∈ matchingEvents cids rest ↔ _
    rw [ih]
    simp
  | .event e :: rest => by
    have ih := mem_matchingEvents ev cids rest
    by_cases hc : cids.contains e.id = true
    · have hmm : e.id ∈ cids := by simpa using hc
      have hm : matchingEvents cids (IdeaRecord.event e :: rest) = e :: matchingEvents cids rest := by
        simp [matchingEvents, hmm]
      rw [hm]
      constructor
      · intro hmm
        rcases List.mem_cons.mp hmm with h | h
        · subst h
          exact ⟨List.mem_cons_self _ _, by simpa using hc⟩
        · have hih := ih.mp h
          exact ⟨List.mem_cons_of_mem _ hih.1, hih.2⟩
      · intro hyp
        rcases List.mem_cons.mp hyp.1 with h | h
        · have he : ev = e := by injection h
          subst he
          exact List.mem_cons_self _ _
        · exact List.mem_cons_of_mem _ (ih.mpr ⟨h, hyp.2⟩)
    · have hcf : cids.contains e.id = false := by simpa using hc
      have hmm2 : e.id ∉ cids := by simpa using hcf
      have hm : matchingEvents cids (IdeaRecord.event e :: rest) = matchingEvents cids rest := by
        simp [matchingEvents, hmm2]
      rw [hm, ih]
      constructor
      · intro hyp
        exact ⟨List.mem_cons_of_mem _ hyp.1, hyp.2⟩
      · intro hyp
        rcases List.mem_cons.mp hyp.1 with h | h
        · have he : ev = e := by injection h
          subst he
          have : cids.contains ev.id = true := by simpa using hyp.2
          rw [hcf] at this
          cases this
        · exact ⟨h, hyp.2⟩

theorem collectIncidents_events_nil : ∀ (rs : List IdeaRecord) (inc : Incident),
    inc ∈ collectIncidents rs → inc.events = []
  | [], inc => by intro h; cases h
  | .incident i c s :: rest, inc => by
    intro h
    rcases List.mem_cons.mp h with h | h
    · subst h; rfl
    · exact collectIncidents_events_nil rest inc h
  | .event e :: rest, inc => by
    intro h
    exact collectIncidents_events_nil rest inc h

/-- C4: in JSONL/IDEA mode the two-pass correlation resolution is
complete and exclusive regardless of record order: for every incident
produced by the parse, an event appears under it exactly when some Event
record of the file carries an ID named by the incident's CorrelID list —
all such events appear (even when the Event record precedes its Incident
record in the file) and no event with an unrelated ID does. -/
theorem C4_correlation_completeness (rs : List IdeaRecord) (inc : Incident) (ev : IdeaEvent)
    (hinc : inc ∈ parseIdea rs) :
    ev ∈ inc.events ↔ (IdeaRecord.event ev ∈ rs ∧ ev.id ∈ inc.correlIds) := by
  unfold parseIdea at hinc
  rw [attachPass_eq rs (collectIncidents rs)] at hinc
  rcases List.mem_map.mp hinc with ⟨inc0, hmem0, heq⟩
  have h0 : inc0.events = [] := collectIncidents_events_nil rs inc0 hmem0
  subst heq
  show ev ∈ inc0.events ++ matchingEvents inc0.correlIds rs ↔ _
  rw [h0, List.nil_append]
  exact mem_matchingEvents ev inc0.correlIds rs

/-- Witness for C4: a concrete record list where an Event record precedes
its Incident record; the event appears under the incident while an
unrelated event does not. -/
theorem C4_correlation_completeness_witness :
    (IdeaEvent.mk "e1" .high "beacon" ∈
      (Incident.mk "i1" ["e1", "e2"] none
        [IdeaEvent.mk "e1" .high "beacon", IdeaEvent.mk "e2" .low "dns"]).events) ∧
    ¬ (IdeaEvent.mk "e9" .low "other" ∈
      (Incident.mk "i1" ["e1", "e2"] none
        [IdeaEvent.mk "e1" .high "beacon", IdeaEvent.mk "e2" .low "dns"]).events) := by
  constructor
  · exact (C4_correlation_completeness
      [IdeaRecord.event (IdeaEvent.mk "e1" .high "beacon"),
       IdeaRecord.incident "i1" ["e1", "e2"] none,
       IdeaRecord.event (IdeaEvent.mk "e2" .low "dns"),
       IdeaRecord.event (IdeaEvent.mk "e9" .low "other")]
      (Incident.mk "i1" ["e1", "e2"] none
        [IdeaEvent.mk "e1" .high "beacon", IdeaEvent.mk "e2" .low "dns"])
      (IdeaEvent.mk "e1" .high "beacon") (by decide)).mpr ⟨by decide, by decide⟩
  · intro hmem
    have h := (C4_correlation_completeness
      [IdeaRecord.event (IdeaEvent.mk "e1" .high "beacon"),
       IdeaRecord.incident "i1" ["e1", "e2"] none,
       IdeaRecord.event (IdeaEvent.mk "e2" .low "dns"),
       IdeaRecord.event (IdeaEvent.mk "e9" .low "other")]
      (Incident.mk "i1" ["e1", "e2"] none
        [IdeaEvent.mk "e1" .high "beacon", IdeaEvent.mk "e2" .low "dns"])
      (IdeaEvent.mk "e9" .low "other") (by decide)).mp hmem
    exact absurd h.2 (by decide)

/-! ## C7: error-severity asymmetry between the two input paths -/

theorem stepLine_unrecognized (st : ParserState) (l : String)
    (h1 : headerLine? l = none) (h2 : bulletLine? l = none) (h3 : similarLine? l = none) :
    stepLine st l = { st with skipped := st.skipped + 1 } := by
  unfold stepLine
  rw [h1]
  cases hc : st.curHeader with
  | none => rfl
  | some hd =>
    obtain ⟨ts, ip⟩ := hd
    rw [h2, h3]

theorem stepLine_skip_shift (st : ParserState) (l : String) (k : Nat) :
    stepLine { st with skipped := st.skipped + k } l
      = { stepLine st l with skipped := (stepLine st l).skipped + k } := by
  unfold stepLine
  cases h1 : headerLine? l with
  | some hd => rfl
  | none =>
    cases hc : st.curHeader with
    | none => simp [Nat.add_right_comm]
    | some hd =>
      obtain ⟨ts, ip⟩ := hd
      cases h2 : bulletLine? l with
      | some d => rfl
      | none =>
        cases h3 : similarLine? l with
        | none => simp [Nat.add_right_comm]
        | some n =>
          by_cases he : st.events.isEmpty = true
          · simp [he, Nat.add_right_comm]
          · simp [he]

theorem foldSteps_skip_shift (ls : List String) :
    ∀ (st : ParserState) (k : Nat),
      foldSteps { st with skipped := st.skipped + k } ls
        = { foldSteps st ls with skipped := (foldSteps st ls).skipped + k } := by
  induction ls with
  | nil => intro st k; rfl
  | cons l rest ih =>
    intro st k
    show foldSteps (stepLine { st with skipped := st.skipped + k } l) rest = _
    rw [stepLine_skip_shift]
    rw [ih (stepLine st l) k]
    rfl

theorem plainParse_insert_junk (pre post : List String) (junk : String)
    (h1 : headerLine? junk = none) (h2 : bulletLine? junk = none)
    (h3 : similarLine? junk = none) :
    plainParse (pre ++ junk :: post)
      = { plainParse (pre ++ post) with skipped := (plainParse (pre ++ post)).skipped + 1 } := by
  unfold plainParse foldSteps
  rw [List.foldl_append, List.foldl_cons]
  rw [show List.foldl stepLine initState pre = foldSteps initState pre from rfl]
  rw [show stepLine (foldSteps initState pre) junk
      = { foldSteps initState pre with skipped := (foldSteps initState pre).skipped + 1 }
    from stepLine_unrecognized _ _ h1 h2 h3]
  rw [show List.foldl stepLine
        { foldSteps initState pre with skipped := (foldSteps initState pre).skipped + 1 } post
      = foldSteps { foldSteps initState pre with
          skipped := (foldSteps initState pre).skipped + 1 } post from rfl]
  rw [foldSteps_skip_shift post (foldSteps initState pre) 1]
  rw [List.foldl_append]
  rfl

/-- C7 (amended): error severity is asymmetric between the two input
paths, with the JSONL fatal check applying to the file's first line only.
Plain-text path: inserting any unrecognizable line anywhere in the input
leaves the emitted events unchanged and increments the skipped-line
counter by one — the parse always completes, never aborts.  JSONL path:
a file whose first line is not valid JSON fails validate_alert_file and
the run exits 1 before any parsing or LLM work. -/
theorem C7_error_asymmetry :
    (∀ (pre post : List String) (junk : String),
        headerLine? junk = none → bulletLine? junk = none → similarLine? junk = none →
        (plainParse (pre ++ junk :: post)).events = (plainParse (pre ++ post)).events ∧
        (plainParse (pre ++ junk :: post)).skipped = (plainParse (pre ++ post)).skipped + 1) ∧
    (∀ (jsonOk : String → Bool) (lines : List String),
        jsonOk (lines.headD "") = false →
        validateAlertFile jsonOk lines = ValidateOutcome.fatalFormat ∧
        alertsMainGate jsonOk lines = (1, AlertsRunPhase.abortedValidation)) := by
  constructor
  · intro pre post junk h1 h2 h3
    rw [plainParse_insert_junk pre post junk h1 h2 h3]
    exact ⟨rfl, rfl⟩
  · intro jsonOk lines hj
    have hv : validateAlertFile jsonOk lines = ValidateOutcome.fatalFormat := by
      unfold validateAlertFile
      rw [hj]
      rfl
    exact ⟨hv, by unfold alertsMainGate; rw [hv]⟩

/-- Witness for C7 at a concrete junk line and a concrete JSONL file with
an invalid first line. -/
theorem C7_error_asymmetry_witness :
    ((plainParse
        (["2023/11/03 23:27:41 [evidence.py:1] [INFO] [IP 10.0.0.1] given the following evidence:"]
          ++ "%% corrupted line %%" :: ["- Unencrypted HTTP traffic to 1.2.3.4."])).skipped
      = (plainParse
          (["2023/11/03 23:27:41 [evidence.py:1] [INFO] [IP 10.0.0.1] given the following evidence:"]
            ++ ["- Unencrypted HTTP traffic to 1.2.3.4."])).skipped + 1) ∧
    alertsMainGate (fun _ => false) ["not json at all"] = (1, AlertsRunPhase.abortedValidation) := by
  constructor
  · exact (C7_error_asymmetry.1
      ["2023/11/03 23:27:41 [evidence.py:1] [INFO] [IP 10.0.0.1] given the following evidence:"]
      ["- Unencrypted HTTP traffic to 1.2.3.4."]
      "%% corrupted line %%" (by decide) (by decide) (by decide)).2
  · exact (C7_error_asymmetry.2 (fun _ => false) ["not json at all"] rfl).2

/-- The first line of the C7 counterexample file: a valid JSONL Incident
record. -/
def c7Line1 : String :=
  "\x7b\"Status\": \"Incident\", \"ID\": \"i1\", \"CorrelID\": [\"e1\"]\x7d"

/-- The second line of the C7 counterexample file: not valid JSON. -/
def c7Line2 : String :=
  "this line is not valid JSON ["

/-- The external JSON check for the C7 counterexample: only the first
line is valid JSON. -/
def c7JsonOk : String → Bool :=
  fun s => s == c7Line1

/-- The external JSON decoder for the C7 counterexample: the first line
decodes to an Incident record, the second fails. -/
def c7Decode : String → Option IdeaRecord :=
  fun s => if s == c7Line1 then some (IdeaRecord.incident "i1" ["e1"] none) else none

/-- Counterexample to C7 as stated: a structurally invalid JSONL file —
its second line is not valid JSON — does not cause a fatal error.
validate_alert_file only JSON-checks the first line, so validation
passes, the run proceeds to LLM work, and the (spec section 7) per-record
parse completes, dropping the bad line with one warning. -/
theorem C7_second_line_not_fatal :
    c7JsonOk c7Line2 = false ∧
    validateAlertFile c7JsonOk [c7Line1, c7Line2] = ValidateOutcome.okRun false ∧
    alertsMainGate c7JsonOk [c7Line1, c7Line2] = (0, AlertsRunPhase.reachedLlmWork) ∧
    decodeLines c7Decode [c7Line1, c7Line2] = ([IdeaRecord.incident "i1" ["e1"] none], 1) := by
  refine ⟨by decide, by decide, by decide, by decide⟩

/-! ## C9: output-file JSON closure of generate_dataset_alerts.sh -/

theorem entrySeps_concat : ∀ (ids : List Nat) (j : Nat),
    entrySeps (ids ++ [j])
      = entrySeps ids
        ++ (if ids.isEmpty then [DatasetTok.entryT j] else [DatasetTok.commaT, DatasetTok.entryT j])
  | [], j => rfl
  | [i], j => rfl
  | i :: k :: rest, j => by
    have ih := entrySeps_concat (k :: rest) j
    show DatasetTok.entryT i :: DatasetTok.commaT :: entrySeps (k :: (rest ++ [j])) = _
    simp only [List.cons_append] at ih
    rw [ih]
    simp [entrySeps]

theorem closeT_not_mem_entrySeps : ∀ ids : List Nat, DatasetTok.closeT ∉ entrySeps ids
  | [] => by simp [entrySeps]
  | [i] => by simp [entrySeps]
  | i :: k :: rest => by
    have ih := closeT_not_mem_entrySeps (k :: rest)
    simp [entrySeps, ih]

theorem valid_file_has_closeT (l : List DatasetTok) (h : ValidDatasetFile l) :
    DatasetTok.closeT ∈ l := by
  obtain ⟨ids, rfl⟩ := h
  simp

theorem processAlerts_abort (outs : List Bool) :
    ∀ st : AlertsLoopState, st.failedAlerts = 0 → false ∈ outs →
      ∃ f, processAlerts st outs = RunResult.setEAbort f ∧
        (DatasetTok.closeT ∈ f ↔ DatasetTok.closeT ∈ st.file) := by
  induction outs with
  | nil => intro st _ hf; cases hf
  | cons ok rest ih =>
    intro st hfa hf
    cases hok : ok with
    | false =>
      refine ⟨st.file, ?_, Iff.rfl⟩
      simp [processAlerts, hfa]
    | true =>
      have hfr : false ∈ rest := by
        rcases List.mem_cons.mp hf with h | h
        · rw [hok] at h
          exact Bool.noConfusion h
        · exact h
      have hstep : processAlerts st (true :: rest)
          = processAlerts
            { file := (if st.firstEntry then st.file else st.file ++ [DatasetTok.commaT])
                  ++ [DatasetTok.entryT st.currentAlert],
              firstEntry := false, failedAlerts := st.failedAlerts,
              currentAlert := st.currentAlert + 1 } rest := rfl
      obtain ⟨f, hrun, hiff⟩ := ih
        { file := (if st.firstEntry then st.file else st.file ++ [DatasetTok.commaT])
              ++ [DatasetTok.entryT st.currentAlert],
          firstEntry := false, failedAlerts := st.failedAlerts,
          currentAlert := st.currentAlert + 1 } hfa hfr
      refine ⟨f, by rw [hstep]; exact hrun, ?_⟩
      rw [hiff]
      by_cases hfe : st.firstEntry = true <;> simp [hfe]

theorem processAlerts_all_ok (outs : List Bool) :
    ∀ (st : AlertsLoopState) (ids : List Nat), false ∉ outs →
      st.file = DatasetTok.openT :: entrySeps ids →
      (st.firstEntry = true ↔ ids = []) →
      ∃ ids', processAlerts st outs
        = RunResult.finished (DatasetTok.openT :: entrySeps ids' ++ [DatasetTok.closeT]) := by
  induction outs with
  | nil =>
    intro st ids _ hfile _
    refine ⟨ids, ?_⟩
    show RunResult.finished (st.file ++ [DatasetTok.closeT]) = _
    rw [hfile]
  | cons ok rest ih =>
    intro st ids hf hfile hfe
    cases hok : ok with
    | false =>
      apply absurd hf
      simp only [not_not]
      rw [hok]
      exact List.mem_cons_self _ _
    | true =>
      have hfr : false ∉ rest := fun h => hf (List.mem_cons_of_mem _ h)
      have hstep : processAlerts st (true :: rest)
          = processAlerts
            { file := (if st.firstEntry then st.file else st.file ++ [DatasetTok.commaT])
                  ++ [DatasetTok.entryT st.currentAlert],
              firstEntry := false, failedAlerts := st.failedAlerts,
              currentAlert := st.currentAlert + 1 } rest := rfl
      by_cases hfirst : st.firstEntry = true
      · have hids : ids = [] := hfe.mp hfirst
        subst hids
        have hfile2 : (if st.firstEntry then st.file else st.file ++ [DatasetTok.commaT])
              ++ [DatasetTok.entryT st.currentAlert]
            = DatasetTok.openT :: entrySeps [st.currentAlert] := by
          rw [if_pos hfirst, hfile]
          rfl
        obtain ⟨ids', hrun⟩ := ih
          { file := (if st.firstEntry then st.file else st.file ++ [DatasetTok.commaT])
                ++ [DatasetTok.entryT st.currentAlert],
            firstEntry := false, failedAlerts := st.failedAlerts,
            currentAlert := st.currentAlert + 1 } [st.currentAlert] hfr hfile2 (by simp)
        exact ⟨ids', by rw [hstep]; exact hrun⟩
      · have hids : ids ≠ [] := fun h => hfirst (hfe.mpr h)
        have hfile2 : (if st.firstEntry then st.file else st.file ++ [DatasetTok.commaT])
              ++ [DatasetTok.entryT st.currentAlert]
            = DatasetTok.openT :: entrySeps (ids ++ [st.currentAlert]) := by
          rw [if_neg hfirst, hfile]
          rw [entrySeps_concat]
          have hie : ids.isEmpty = false := by
            cases ids with
            | nil => exact absurd rfl hids
            | cons a as => rfl
          rw [hie]
          simp
        obtain ⟨ids', hrun⟩ := ih
          { file := (if st.firstEntry then st.file else st.file ++ [DatasetTok.commaT])
                ++ [DatasetTok.entryT st.currentAlert],
            firstEntry := false, failedAlerts := st.failedAlerts,
            currentAlert := st.currentAlert + 1 } (ids ++ [st.currentAlert]) hfr hfile2
          (by simp [hids])
        exact ⟨ids', by rw [hstep]; exact hrun⟩

/-- C9: evaluating the alert-processing loop of
generate_dataset_alerts.sh.  A run in which every alert's analyses
succeed finishes with a well-formed `{"dataset": [...]}` file.  But any
run with a failed alert aborts at its first failure — `((failed_alerts++))`
evaluates to the old value 0, returning status 1, which `set -e` turns
into an immediate exit — leaving the output file unclosed (no `]}`
written), i.e. not a syntactically valid JSON dataset object, despite the
script's documented skip-and-continue and closure behavior. -/
theorem C9_json_closure (outs : List Bool) :
    (false ∈ outs →
      ∃ f, runAlertsScript outs = RunResult.setEAbort f ∧ ¬ ValidDatasetFile f) ∧
    (false ∉ outs →
      ∃ f, runAlertsScript outs = RunResult.finished f ∧ ValidDatasetFile f) := by
  constructor
  · intro hf
    obtain ⟨f, hrun, hiff⟩ := processAlerts_abort outs
      { file := [DatasetTok.openT], firstEntry := true, failedAlerts := 0, currentAlert := 1 }
      rfl hf
    refine ⟨f, hrun, fun hvalid => ?_⟩
    have hc := valid_file_has_closeT f hvalid
    have : DatasetTok.closeT ∈ [DatasetTok.openT] := hiff.mp hc
    simp at this
  · intro hf
    obtain ⟨ids', hrun⟩ := processAlerts_all_ok outs
      { file := [DatasetTok.openT], firstEntry := true, failedAlerts := 0, currentAlert := 1 }
      [] hf rfl (by simp)
    exact ⟨DatasetTok.openT :: entrySeps ids' ++ [DatasetTok.closeT], hrun, ⟨ids', rfl⟩⟩

/-- Witness for C9: one failing alert leaves an unclosed invalid file;
an all-success two-alert run yields a valid closed file. -/
theorem C9_json_closure_witness :
    (∃ f, runAlertsScript [false] = RunResult.setEAbort f ∧ ¬ ValidDatasetFile f) ∧
    (∃ f, runAlertsScript [true, true] = RunResult.finished f ∧ ValidDatasetFile f) :=
  ⟨(C9_json_closure [false]).1 (by decide), (C9_json_closure [true, true]).2 (by decide)⟩

/-! ## C8: ordering invariant of the flat/IP-based event stream

Timestamps are the fixed-width `YYYY/MM/DD hh:mm:ss.ffffff` strings of
the log, on which character-wise lexicographic order coincides with
chronological order. -/

/-- Lexicographic order on character lists by code point. -/
def charsLe : List Char → List Char → Bool
  | [], _ => true
  | _ :: _, [] => false
  | a :: as, b :: bs => if a == b then charsLe as bs else decide (a.toNat < b.toNat)

/-- Lexicographic order on strings by code point. -/
def strLe (a b : String) : Bool :=
  charsLe a.toList b.toList

theorem charsLe_refl : ∀ x : List Char, charsLe x x = true
  | [] => rfl
  | a :: as => by simp [charsLe, charsLe_refl as]

theorem strLe_refl (s : String) : strLe s s = true :=
  charsLe_refl s.toList

theorem charsLe_trans : ∀ x y z : List Char,
    charsLe x y = true → charsLe y z = true → charsLe x z = true
  | [], _, _ => by intro _ _; rfl
  | a :: as, [], _ => by intro h _; exact Bool.noConfusion h
  | a :: as, b :: bs, [] => by intro _ h; exact Bool.noConfusion h
  | a :: as, b :: bs, c :: cs => by
    intro h1 h2
    show charsLe (a :: as) (c :: cs) = true
    by_cases hab : (a == b) = true
    · have hab' : a = b := by simpa using hab
      subst hab'
      rw [show charsLe (a :: as) (a :: bs) = charsLe as bs from by simp [charsLe]] at h1
      by_cases hbc : (a == c) = true
      · have hbc' : a = c := by simpa using hbc
        subst hbc'
        rw [show charsLe (a :: bs) (a :: cs) = charsLe bs cs from by simp [charsLe]] at h2
        simpa [charsLe] using charsLe_trans as bs cs h1 h2
      · rw [show charsLe (a :: bs) (c :: cs) = decide (a.toNat < c.toNat) from by
          simp [charsLe, hbc]] at h2
        simp [charsLe, hbc]
        simpa using h2
    · rw [show charsLe (a :: as) (b :: bs) = decide (a.toNat < b.toNat) from by
        simp [charsLe, hab]] at h1
      have hlt1 : a.toNat < b.toNat := by simpa using h1
      by_cases hbc : (b == c) = true
      · have hbc' : b = c := by simpa using hbc
        subst hbc'
        have hac : (a == b) = false := by simpa using hab
        simp [charsLe, hac]
        exact hlt1
      · rw [show charsLe (b :: bs) (c :: cs) = decide (b.toNat < c.toNat) from by
          simp [charsLe, hbc]] at h2
        have hlt2 : b.toNat < c.toNat := by simpa using h2
        have hlt : a.toNat < c.toNat := Nat.lt_trans hlt1 hlt2
        have hac : (a == c) = false := by
          by_contra hcon
          have : (a == c) = true := by simpa using hcon
          have : a = c := by simpa using this
          subst this
          exact Nat.lt_irrefl _ hlt
        simp [charsLe, hac]
        exact hlt

theorem strLe_trans (a b c : String) (h1 : strLe a b = true) (h2 : strLe b c = true) :
    strLe a c = true :=
  charsLe_trans a.toList b.toList c.toList h1 h2

/-- The timestamp sequence of an event list. -/
def tsOf (evs : List EvidenceEvent) : List String :=
  evs.map (fun e => e.timestamp)

/-- The timestamps of the input's header lines, in file order. -/
def headerTsList (ls : List String) : List String :=
  ls.filterMap (fun l => (headerLine? l).map (fun h => h.fst))

/-- The documented input assumption (spec section 4.3): the file's header
lines appear in chronological order. -/
def Chronological (ls : List String) : Prop :=
  (headerTsList ls).Pairwise (fun a b => strLe a b = true)

theorem tsOf_updateLast (k : Nat) : ∀ evs : List EvidenceEvent,
    tsOf (updateLast (fun e => { e with repeat_count := k }) evs) = tsOf evs
  | [] => rfl
  | [a] => rfl
  | a :: b :: rest => by
    show a.timestamp :: tsOf (updateLast _ (b :: rest)) = a.timestamp :: tsOf (b :: rest)
    rw [tsOf_updateLast k (b :: rest)]

theorem foldSteps_ts_sorted (ls : List String) :
    ∀ st : ParserState,
      (tsOf st.events).Pairwise (fun a b => strLe a b = true) →
      (∀ ts ip, st.curHeader = some (ts, ip) →
        (∀ t ∈ tsOf st.events, strLe t ts = true) ∧
        (∀ t ∈ headerTsList ls, strLe ts t = true)) →
      (st.curHeader = none → st.events = []) →
      (headerTsList ls).Pairwise (fun a b => strLe a b = true) →
      (tsOf (foldSteps st ls).events).Pairwise (fun a b => strLe a b = true) := by
  induction ls with
  | nil => intro st h1 _ _ _; exact h1
  | cons l rest ih =>
    intro st h1 h2 h3 h4
    have hfold : foldSteps st (l :: rest) = foldSteps (stepLine st l) rest := rfl
    rw [hfold]
    cases hh : headerLine? l with
    | some hd =>
      obtain ⟨ts1, ip1⟩ := hd
      have hstep : stepLine st l = { st with curHeader := some (ts1, ip1) } := by
        unfold stepLine
        rw [hh]
      have hhts : headerTsList (l :: rest) = ts1 :: headerTsList rest := by
        simp [headerTsList, List.filterMap_cons, hh]
      rw [hhts] at h4 h2
      have h4' := List.pairwise_cons.mp h4
      rw [hstep]
      apply ih
      · exact h1
      · intro ts ip hsome
        have hts : ts = ts1 := by
          injection hsome with hpair
          injection hpair with ha hb
          exact ha.symm
        subst hts
        constructor
        · intro t ht
          cases hc : st.curHeader with
          | none =>
            rw [h3 hc] at ht
            cases ht
          | some hd0 =>
            obtain ⟨ts0, ip0⟩ := hd0
            have hb := h2 ts0 ip0 hc
            have h01 : strLe ts0 ts = true := hb.2 ts (List.mem_cons_self _ _)
            exact strLe_trans t ts0 ts (hb.1 t ht) h01
        · exact h4'.1
      · intro hnone
        exact Option.noConfusion hnone
      · exact h4'.2
    | none =>
      have hhts : headerTsList (l :: rest) = headerTsList rest := by
        simp [headerTsList, List.filterMap_cons, hh]
      rw [hhts] at h4 h2
      cases hc : st.curHeader with
      | none =>
        have hstep : stepLine st l = { st with skipped := st.skipped + 1 } := by
          unfold stepLine
          rw [hh, hc]
        rw [hstep]
        exact ih _ h1 (fun ts ip h => h2 ts ip h) (fun _ => h3 hc) h4
      | some hd0 =>
        obtain ⟨ts0, ip0⟩ := hd0
        have hb0 := h2 ts0 ip0 hc
        cases hbl : bulletLine? l with
        | some d =>
          have hstep : stepLine st l
              = { st with events := st.events ++ [mkEvent ts0 ip0 d] } := by
            unfold stepLine
            rw [hh, hc, hbl]
          rw [hstep]
          apply ih
          · show (tsOf (st.events ++ [mkEvent ts0 ip0 d])).Pairwise _
            have : tsOf (st.events ++ [mkEvent ts0 ip0 d]) = tsOf st.events ++ [ts0] := by
              simp [tsOf, mkEvent]
            rw [this]
            rw [List.pairwise_append]
            refine ⟨h1, List.pairwise_singleton _ _, ?_⟩
            intro a ha b hbmem
            rw [List.mem_singleton.mp hbmem]
            exact hb0.1 a ha
          · intro ts ip hsome
            have hts : ts = ts0 := by
              rw [hc] at hsome
              injection hsome with hpair
              injection hpair with ha hbq
              exact ha.symm
            subst hts
            constructor
            · intro t ht
              have htseq : tsOf (st.events ++ [mkEvent ts ip0 d]) = tsOf st.events ++ [ts] := by
                simp [tsOf, mkEvent]
              rw [htseq] at ht
              rcases List.mem_append.mp ht with h | h
              · exact hb0.1 t h
              · rw [List.mem_singleton.mp h]
                exact strLe_refl ts
            · exact hb0.2
          · intro hnone
            rw [hc] at hnone
            exact Option.noConfusion hnone
          · exact h4
        | none =>
          cases hsim : similarLine? l with
          | some n =>
            by_cases he : st.events.isEmpty = true
            · have hstep : stepLine st l = { st with skipped := st.skipped + 1 } := by
                unfold stepLine
                rw [hh, hc, hbl, hsim]
                simp [he]
              rw [hstep]
              exact ih _ h1 (fun ts ip h => h2 ts ip h) (fun h => by rw [hc] at h; exact Option.noConfusion h) h4
            · have hstep : stepLine st l
                  = { st with events :=
                      updateLast (fun e => { e with repeat_count := n + 1 }) st.events } := by
                unfold stepLine
                rw [hh, hc, hbl, hsim]
                simp [he]
              rw [hstep]
              apply ih
              · show (tsOf (updateLast _ st.events)).Pairwise _
                rw [tsOf_updateLast]
                exact h1
              · intro ts ip hsome
                have hts : ts = ts0 := by
                  rw [hc] at hsome
                  injection hsome with hpair
                  injection hpair with ha hbq
                  exact ha.symm
                subst hts
                constructor
                · intro t ht
                  rw [show tsOf (updateLast (fun e => { e with repeat_count := n + 1 }) st.events)
                      = tsOf st.events from tsOf_updateLast (n + 1) st.events] at ht
                  exact hb0.1 t ht
                · exact hb0.2
              · intro hnone
                rw [hc] at hnone
                exact Option.noConfusion hnone
              · exact h4
          | none =>
            have hstep : stepLine st l = { st with skipped := st.skipped + 1 } := by
              unfold stepLine
              rw [hh, hc, hbl, hsim]
            rw [hstep]
            exact ih _ h1 (fun ts ip h => h2 ts ip h) (fun h => by rw [hc] at h; exact Option.noConfusion h) h4

/-- C8: in flat/IP-based mode the per-IP event stream is a sublist of the
full emitted stream — file-appearance order is preserved and nothing is
re-sorted — and under the documented precondition that the input's header
lines are chronologically ordered, every IP's emitted timestamp sequence
is non-decreasing. -/
theorem C8_ordering_invariant (ls : List String) (ip : String) :
    (eventsForIp ip (plainParse ls)).Sublist (plainParse ls).events ∧
    (Chronological ls →
      ((eventsForIp ip (plainParse ls)).map (fun e => e.timestamp)).Pairwise
        (fun a b => strLe a b = true)) := by
  constructor
  · exact List.filter_sublist _
  · intro hch
    have hmain := foldSteps_ts_sorted ls initState
      (by simp [tsOf, initState])
      (by intro ts ip0 h; exact Option.noConfusion h)
      (fun _ => rfl) hch
    have hsub : (eventsForIp ip (plainParse ls)).Sublist (plainParse ls).events :=
      List.filter_sublist _
    have hsubm := hsub.map (fun e => e.timestamp)
    exact hmain.sublist hsubm

/-- Witness for C8: a concrete chronologically-ordered two-header log
yields a non-decreasing per-IP timestamp sequence. -/
theorem C8_ordering_invariant_witness :
    Chronological
      ["2023/11/03 23:27:41 [evidence.py:1] [INFO] [IP 10.0.0.1] given the following evidence:",
       "- Unencrypted HTTP traffic to 1.2.3.4.",
       "2023/11/04 06:19:25 [evidence.py:2] [INFO] [IP 10.0.0.1] given the following evidence:",
       "- Connection without DNS resolution to 5.6.7.8."] ∧
    ((eventsForIp "10.0.0.1" (plainParse
        ["2023/11/03 23:27:41 [evidence.py:1] [INFO] [IP 10.0.0.1] given the following evidence:",
         "- Unencrypted HTTP traffic to 1.2.3.4.",
         "2023/11/04 06:19:25 [evidence.py:2] [INFO] [IP 10.0.0.1] given the following evidence:",
         "- Connection without DNS resolution to 5.6.7.8."])).map (fun e => e.timestamp)).Pairwise
      (fun a b => strLe a b = true) := by
  have hch : Chronological
      ["2023/11/03 23:27:41 [evidence.py:1] [INFO] [IP 10.0.0.1] given the following evidence:",
       "- Unencrypted HTTP traffic to 1.2.3.4.",
       "2023/11/04 06:19:25 [evidence.py:2] [INFO] [IP 10.0.0.1] given the following evidence:",
       "- Connection without DNS resolution to 5.6.7.8."] := by
    unfold Chronological
    decide
  exact ⟨hch, (C8_ordering_invariant _ "10.0.0.1").2 hch⟩

end SlipsTools
